import Mathlib

/-!
Shallow embedding of the Secure_Chat repository core.

The embedding covers:
* room identity and symmetric key derivation (`src/lib/crypto.ts`),
* the in-memory message store (`lib/messages`, given as an unnamed source file),
* the REST message handlers (`app/api/messages/route`, unnamed source file),
* the client-side reconciliation logic of `src/components/ChatWindow.tsx`.

JavaScript strings are modelled as Lean `String` with its lexicographic order,
`Date` timestamps and generated UUIDs are passed as explicit parameters, and the
`Map` backing the store is modelled as an insertion-ordered association list
with JS `Map.get` / `Map.set` semantics.
-/

namespace SecureChat

/-- JS `[userId1, userId2].sort()` on a two-element array: a stable sort that
swaps the elements exactly when the second compares below the first. -/
def sortPair (userId1 userId2 : String) : String × String :=
  if userId2 < userId1 then (userId2, userId1) else (userId1, userId2)

/-- Function `getRoomId` of `src/lib/crypto.ts` (lines 5-8):
`const sorted = [userId1, userId2].sort(); return room_${sorted[0]}_${sorted[1]}`. -/
def Crypto.getRoomId (userId1 userId2 : String) : String :=
  "room_" ++ (sortPair userId1 userId2).1 ++ "_" ++ (sortPair userId1 userId2).2

/-- Function `getRoomId` of the message store module (unnamed source file, lines 34-37);
its body is identical to the one in `src/lib/crypto.ts`. -/
def Messages.getRoomId (userId1 userId2 : String) : String :=
  "room_" ++ (sortPair userId1 userId2).1 ++ "_" ++ (sortPair userId1 userId2).2

/-- The local room-id computation of `ChatWindow.tsx` (lines 56-58):
`[currentUser.id, selectedUser.id].sort().join(UNDERSCORE)` — joined with the
underscore character and, note, without the `room_` prefix. -/
def ChatWindow.getRoomId (currentUserId selectedUserId : String) : String :=
  (sortPair currentUserId selectedUserId).1 ++ "_" ++ (sortPair currentUserId selectedUserId).2

/-- Function `deriveKeyFromRoom` of `src/lib/crypto.ts` (lines 36-63): PBKDF2-SHA256 with
the room id as password, the fixed salt `secure-chat-salt-v1` and 100000
iterations. Modelled from the spec: the platform PBKDF2 primitive
(`crypto.subtle.deriveKey`) is not part of the repository; per spec §3/§4.1 it
is a deterministic, collision-resistant function of the room id, so the model
keeps the derivation inputs as the key material, which makes the derivation
injective in the room id. -/
structure SymmetricKey where
  password : String
  salt : String
  iterations : Nat
deriving DecidableEq

def deriveKeyFromRoom (roomId : String) : SymmetricKey :=
  { password := roomId, salt := "secure-chat-salt-v1", iterations := 100000 }

/-- Modelled from the spec: the AES-256-GCM envelope `nonce (12 bytes) ||
ciphertext+tag` (spec §4.2). The platform AEAD (`crypto.subtle.encrypt` /
`crypto.subtle.decrypt`) is not part of the repository; the model is the ideal
authenticated cipher: the envelope records the IV that was prepended, the key
that authenticates it (the role of the GCM tag) and the protected payload,
all opaque to the server. -/
structure Envelope where
  iv : List Nat
  keyTag : SymmetricKey
  payload : String
deriving DecidableEq

/-- The single opaque decryption failure of spec §4.2/§7. -/
inductive DecryptionError where
  | decryptionError
deriving DecidableEq

/-- Modelled from the spec: ideal AEAD encryption (spec §4.2). -/
def aesGcmEncrypt (key : SymmetricKey) (iv : List Nat) (plaintext : String) : Envelope :=
  { iv := iv, keyTag := key, payload := plaintext }

/-- Modelled from the spec: ideal AEAD decryption — authentication succeeds
exactly under the key that produced the envelope, and any failure is the one
opaque `DecryptionError` (spec §4.2). -/
def aesGcmDecrypt (key : SymmetricKey) (env : Envelope) : Except DecryptionError String :=
  if env.keyTag = key then .ok env.payload else .error .decryptionError

/-- Function `encryptForRoom` of `src/lib/crypto.ts` (lines 66-92): derive the room id
and key, draw a random 12-byte IV (passed here as the explicit argument `iv`),
encrypt, and bundle IV and ciphertext into one envelope. -/
def encryptForRoom (message myUserId otherUserId : String) (iv : List Nat) : Envelope :=
  aesGcmEncrypt (deriveKeyFromRoom (Crypto.getRoomId myUserId otherUserId)) iv message

/-- Function `decryptFromRoom` of `src/lib/crypto.ts` (lines 95-119): derive the room id
and key for the given pair and attempt authenticated decryption of the envelope. -/
def decryptFromRoom (encryptedData : Envelope) (myUserId otherUserId : String) :
    Except DecryptionError String :=
  aesGcmDecrypt (deriveKeyFromRoom (Crypto.getRoomId myUserId otherUserId)) encryptedData

/- ### The in-memory message store (unnamed source file, `lib/messages`) -/

/-- The `interface Message` of the store. `timestamp` (a JS `Date`) is modelled as
a `Nat`; `id` is the UUID string assigned on creation. -/
structure Message where
  id : String
  senderId : String
  senderName : String
  receiverId : String
  encryptedContent : String
  timestamp : Nat
  isRead : Bool
deriving DecidableEq

/-- The `interface ChatRoom` of the store. -/
structure ChatRoom where
  id : String
  participants : List String
  messages : List Message
  createdAt : Nat
deriving DecidableEq

/-- The `Map<string, ChatRoom>` backing the store, as an insertion-ordered
association list (JS `Map` keeps insertion order and holds each key once). -/
abbrev ChatRooms := List (String × ChatRoom)

/-- JS `Map.get`: the value stored under `k`, if any. -/
def mapGet? (s : ChatRooms) (k : String) : Option ChatRoom :=
  match s with
  | [] => none
  | (k', v') :: rest => if k' = k then some v' else mapGet? rest k

/-- JS `Map.set`: replace the entry under `k` in place, or append a new one. -/
def mapSet (s : ChatRooms) (k : String) (v : ChatRoom) : ChatRooms :=
  match s with
  | [] => [(k, v)]
  | (k', v') :: rest => if k' = k then (k, v) :: rest else (k', v') :: mapSet rest k v

/-- Function `getOrCreateRoom` (store lines 42-55). `now` stands for `new Date()`;
the returned pair is (updated store, room). -/
def getOrCreateRoom (s : ChatRooms) (userId1 userId2 : String) (now : Nat) :
    ChatRooms × ChatRoom :=
  let roomId := Messages.getRoomId userId1 userId2
  match mapGet? s roomId with
  | some room => (s, room)
  | none =>
    let room : ChatRoom :=
      { id := roomId, participants := [userId1, userId2], messages := [], createdAt := now }
    (mapSet s roomId room, room)

/-- The error thrown by `addMessage` when the room is absent
(`throw new Error(...)` with the chat-room-not-found text). -/
inductive StoreError where
  | roomNotFound
deriving DecidableEq

/-- Function `addMessage` (store lines 60-85). `freshId` stands for the generated
`uuidv4()` and `now` for `new Date()`; the thrown error becomes `Except.error`. -/
def addMessage (s : ChatRooms) (roomId senderId senderName receiverId encryptedContent : String)
    (freshId : String) (now : Nat) : Except StoreError (ChatRooms × Message) :=
  match mapGet? s roomId with
  | none => .error .roomNotFound
  | some room =>
    let message : Message :=
      { id := freshId, senderId := senderId, senderName := senderName,
        receiverId := receiverId, encryptedContent := encryptedContent,
        timestamp := now, isRead := false }
    .ok (mapSet s roomId { room with messages := room.messages ++ [message] }, message)

/-- JS `array.slice(-limit)` on a message list: the last `limit` elements when
`limit > 0`, but the WHOLE array when `limit = 0` (since `slice(-0)` is
`slice(0)`). -/
def sliceLast (l : List Message) (limit : Nat) : List Message :=
  if limit = 0 then l else l.drop (l.length - limit)

/-- Function `getMessages` (store lines 90-99): returns `[]` for an absent room, else
`room.messages.slice(-limit)`; the declared default for `limit` is 50. -/
def getMessages (s : ChatRooms) (roomId : String) (limit : Nat := 50) : List Message :=
  match mapGet? s roomId with
  | none => []
  | some room => sliceLast room.messages limit

/-- Function `markMessagesAsRead` (store lines 104-114): flip `isRead` on every message
of the room addressed to `userId` that is not yet read; no-op on absent room. -/
def markMessagesAsRead (s : ChatRooms) (roomId userId : String) : ChatRooms :=
  match mapGet? s roomId with
  | none => s
  | some room =>
    mapSet s roomId
      { room with
        messages := room.messages.map fun msg =>
          if msg.receiverId == userId && !msg.isRead then { msg with isRead := true } else msg }

/-- Function `getUnreadCount` (store lines 119-129). -/
def getUnreadCount (s : ChatRooms) (roomId userId : String) : Nat :=
  match mapGet? s roomId with
  | none => 0
  | some room =>
    (room.messages.filter fun msg => msg.receiverId == userId && !msg.isRead).length

/- ### The REST message handlers (unnamed source file, `app/api/messages/route`) -/

/-- The authenticated identity supplied by `getServerSession` (spec §6). -/
structure SessionUser where
  id : String
  name : String
deriving DecidableEq

/-- Outcome of the `GET` handler. `unauthorized` is the 401 response,
`badRequest` the 400 response for a missing `otherUserId`. -/
inductive GetResult where
  | unauthorized
  | badRequest
  | ok (messages : List Message) (roomId : String)
deriving DecidableEq

/-- The `GET` handler (route lines 8-37). A JS falsy check guards the session
(`!session?.user?.id`): absent session or empty-string id is rejected with 401
before the store is consulted; likewise `!otherUserId` yields 400. -/
def handleGET (session : Option SessionUser) (otherUserId : Option String) (s : ChatRooms) :
    GetResult :=
  match session with
  | none => .unauthorized
  | some user =>
    if user.id = "" then .unauthorized
    else
      match otherUserId with
      | none => .badRequest
      | some other =>
        if other = "" then .badRequest
        else .ok (getMessages s (Messages.getRoomId user.id other) 50)
               (Messages.getRoomId user.id other)

/-- Outcome of the `POST` handler. `serverError` is the 500 response produced
by the surrounding `catch`. -/
inductive PostResult where
  | unauthorized
  | badRequest
  | serverError
  | ok (message : Message)
deriving DecidableEq

/-- The `POST` handler (route lines 40-90): session falsy-check (401), body
falsy-check (400), then `getOrCreateRoom`, `addMessage` and the relay fan-out
(the Pusher triggers do not touch the store and are omitted). The handler
returns its response together with the store it leaves behind. -/
def handlePOST (session : Option SessionUser) (receiverId encryptedContent : Option String)
    (s : ChatRooms) (freshId : String) (now : Nat) : PostResult × ChatRooms :=
  match session with
  | none => (.unauthorized, s)
  | some user =>
    if user.id = "" then (.unauthorized, s)
    else
      match receiverId, encryptedContent with
      | some rid, some content =>
        if rid = "" || content = "" then (.badRequest, s)
        else
          let roomResult := getOrCreateRoom s user.id rid now
          match addMessage roomResult.1 roomResult.2.id user.id user.name rid content
              freshId now with
          | .ok (s2, message) => (.ok message, s2)
          | .error _ => (.serverError, roomResult.1)
      | _, _ => (.badRequest, s)

/- ### The client-side reconciler (`src/components/ChatWindow.tsx`) -/

/-- Function `handleNewMessage` (ChatWindow lines 125-142), collapsed to its sequential
effect on the local list: if a message with the same id is already present the
event is discarded, otherwise the message is appended. (The code re-checks the
id after the asynchronous decryption, which rewrites content fields but never
the id, so the id-level effect is exactly this.) -/
def handleNewMessage (prev : List Message) (message : Message) : List Message :=
  if prev.any fun m => m.id == message.id then prev else prev ++ [message]

/-- The optimistic local insert of `sendMessage` (ChatWindow lines 227-239):
after the REST confirmation the confirmed message is appended unconditionally,
with no duplicate check. -/
def optimisticInsert (prev : List Message) (message : Message) : List Message :=
  prev ++ [message]

/-- One message-bearing event reaching the local client list: a `new-message`
delivery from either real-time path, or the optimistic local insert that
follows a REST confirmation. -/
inductive ClientEvent where
  | receive (message : Message)
  | optimistic (message : Message)
deriving DecidableEq

def applyEvent (msgs : List Message) : ClientEvent → List Message
  | .receive m => handleNewMessage msgs m
  | .optimistic m => optimisticInsert msgs m

def applyEvents (msgs : List Message) : List ClientEvent → List Message
  | [] => msgs
  | e :: rest => applyEvents (applyEvent msgs e) rest

/-- The ids currently held in the local client list. -/
def ids (l : List Message) : List String := l.map Message.id

/-- Every optimistic insert in the event sequence carries an id that is not in
the list at the moment it is applied — the freshness the server guarantees by
assigning each stored message a fresh `uuidv4()`. -/
def optimisticFresh (cur : List Message) : List ClientEvent → Bool
  | [] => true
  | .receive m :: rest => optimisticFresh (handleNewMessage cur m) rest
  | .optimistic m :: rest =>
      !(cur.any fun x => x.id == m.id) && optimisticFresh (cur ++ [m]) rest

/-- A store is well formed when every room sits under the key equal to its own
id — the invariant `getOrCreateRoom` establishes for every entry it creates. -/
def WellFormedStore (s : ChatRooms) : Prop :=
  ∀ k room, mapGet? s k = some room → room.id = k

/- ### Concrete fixtures used by witnesses and counterexamples -/

/-- A sample stored message from `a` to `b`. -/
def msgA : Message :=
  { id := "m1", senderId := "a", senderName := "Alice", receiverId := "b",
    encryptedContent := "ct", timestamp := 1, isRead := false }

/-- A sample room holding `msgA`. -/
def roomAB : ChatRoom :=
  { id := "room_a_b", participants := ["a", "b"], messages := [msgA], createdAt := 0 }

/-- A sample store holding `roomAB`. -/
def storeA : ChatRooms := [("room_a_b", roomAB)]

/- ### Helper lemmas: the sorted pair and room ids -/

theorem sortPair_comm (a b : String) : sortPair a b = sortPair b a := by
  unfold sortPair
  rcases lt_trichotomy a b with h | h | h
  · rw [if_neg (lt_asymm h), if_pos h]
  · subst h; rfl
  · rw [if_pos h, if_neg (lt_asymm h)]

theorem sortPair_eq_min_max (a b : String) : sortPair a b = (min a b, max a b) := by
  unfold sortPair
  rcases le_or_lt a b with h | h
  · rw [if_neg (not_lt.mpr h), min_eq_left h, max_eq_right h]
  · rw [if_pos h, min_eq_right h.le, max_eq_left h.le]

/-- The lexicographic string order used by the JS sort, restated on the
character lists so that it evaluates on concrete strings. -/
theorem string_lt_iff_data_lt (a b : String) : a < b ↔ a.data < b.data :=
  String.lt_iff_toList_lt

theorem sortPair_eval (a b : String) :
    sortPair a b = if b.data < a.data then (b, a) else (a, b) := by
  unfold sortPair
  by_cases h : b < a
  · rw [if_pos h, if_pos ((string_lt_iff_data_lt b a).mp h)]
  · rw [if_neg h, if_neg (fun hc => h ((string_lt_iff_data_lt b a).mpr hc))]

theorem crypto_getRoomId_comm (a b : String) :
    Crypto.getRoomId a b = Crypto.getRoomId b a := by
  unfold Crypto.getRoomId; rw [sortPair_comm]

theorem messages_getRoomId_comm (a b : String) :
    Messages.getRoomId a b = Messages.getRoomId b a := by
  unfold Messages.getRoomId; rw [sortPair_comm]

theorem crypto_messages_getRoomId_eq (a b : String) :
    Crypto.getRoomId a b = Messages.getRoomId a b := rfl

theorem crypto_getRoomId_eval (a b : String) :
    Crypto.getRoomId a b =
      if b.data < a.data then "room_" ++ b ++ "_" ++ a else "room_" ++ a ++ "_" ++ b := by
  unfold Crypto.getRoomId
  rw [sortPair_eval]
  by_cases h : b.data < a.data <;> simp [h]

theorem chatWindow_getRoomId_eval (a b : String) :
    ChatWindow.getRoomId a b =
      if b.data < a.data then b ++ "_" ++ a else a ++ "_" ++ b := by
  unfold ChatWindow.getRoomId
  rw [sortPair_eval]
  by_cases h : b.data < a.data <;> simp [h]

theorem crypto_eq_room_append_chatWindow (a b : String) :
    Crypto.getRoomId a b = "room_" ++ ChatWindow.getRoomId a b := by
  unfold Crypto.getRoomId ChatWindow.getRoomId
  simp [String.append_assoc]

theorem chatWindow_ne_crypto (a b : String) :
    ChatWindow.getRoomId a b ≠ Crypto.getRoomId a b := by
  intro h
  have hlen := congrArg String.length h
  rw [crypto_eq_room_append_chatWindow, String.length_append] at hlen
  have h5 : ("room_" : String).length = 5 := rfl
  omega

/- ### Helper lemmas: the store map -/

theorem mapGet?_mapSet_self (s : ChatRooms) (k : String) (v : ChatRoom) :
    mapGet? (mapSet s k v) k = some v := by
  induction s with
  | nil => simp [mapSet, mapGet?]
  | cons p rest ih =>
    obtain ⟨k', v'⟩ := p
    by_cases h : k' = k
    · subst h; simp [mapSet, mapGet?]
    · simp [mapSet, mapGet?, h, ih]

theorem mapGet?_mapSet_ne (s : ChatRooms) (k k' : String) (v : ChatRoom) (h : k' ≠ k) :
    mapGet? (mapSet s k v) k' = mapGet? s k' := by
  induction s with
  | nil => simp [mapSet, mapGet?, Ne.symm h]
  | cons p rest ih =>
    obtain ⟨k₀, v₀⟩ := p
    by_cases hk : k₀ = k
    · subst hk; simp [mapSet, mapGet?, Ne.symm h]
    · by_cases hk' : k₀ = k'
      · subst hk'; simp [mapSet, mapGet?, hk]
      · simp [mapSet, mapGet?, hk, hk', ih]

/- ### Helper lemmas: marking read -/

theorem filter_unread_after_mark (userId : String) (l : List Message) :
    ((l.map fun msg =>
        if msg.receiverId == userId && !msg.isRead then { msg with isRead := true } else msg).filter
      fun msg => msg.receiverId == userId && !msg.isRead) = [] := by
  induction l with
  | nil => rfl
  | cons m rest ih =>
    simp only [List.map_cons, List.filter_cons]
    by_cases hp : (m.receiverId == userId && !m.isRead) = true
    · rw [if_pos hp]
      have hrecv : (m.receiverId == userId) = true := (Bool.and_eq_true _ _ |>.mp hp).1
      have hfalse : (({ m with isRead := true } : Message).receiverId == userId &&
          !({ m with isRead := true } : Message).isRead) = false := by
        simp
      rw [hfalse]
      simpa using ih
    · rw [if_neg hp]
      have hfalse : (m.receiverId == userId && !m.isRead) = false := by
        simpa using hp
      rw [hfalse]
      simpa using ih

theorem forall₂_map_self {α : Type} (R : α → α → Prop) (f : α → α) (l : List α)
    (h : ∀ a ∈ l, R a (f a)) : List.Forall₂ R l (l.map f) := by
  induction l with
  | nil => exact List.Forall₂.nil
  | cons a rest ih =>
    exact List.Forall₂.cons (h a (by simp)) (ih fun x hx => h x (by simp [hx]))

/- ### Helper lemmas: the reconciler -/

theorem nodup_ids_append_fresh {cur : List Message} {m : Message}
    (h : (ids cur).Nodup) (hnot : m.id ∉ ids cur) : (ids (cur ++ [m])).Nodup := by
  have hmain : (ids cur ++ [m.id]).Nodup := by
    rw [List.nodup_append]
    refine ⟨h, List.nodup_singleton _, ?_⟩
    intro x hx hx2
    simp only [List.mem_singleton] at hx2
    subst hx2
    exact hnot hx
  simpa [ids] using hmain

theorem ids_nodup_handleNewMessage {cur : List Message} (m : Message)
    (h : (ids cur).Nodup) : (ids (handleNewMessage cur m)).Nodup := by
  unfold handleNewMessage
  by_cases hmem : cur.any fun x => x.id == m.id
  · simpa [hmem] using h
  · have hnot : m.id ∉ ids cur := by
      intro hin
      apply hmem
      simp only [ids, List.mem_map] at hin
      obtain ⟨x, hx, hxid⟩ := hin
      simp only [List.any_eq_true]
      exact ⟨x, hx, by simp [hxid]⟩
    simp only [hmem, Bool.false_eq_true, ↓reduceIte]
    exact nodup_ids_append_fresh h hnot

theorem mem_ids_handleNewMessage (cur : List Message) (m : Message) :
    m.id ∈ ids (handleNewMessage cur m) := by
  unfold handleNewMessage
  by_cases hmem : cur.any fun x => x.id == m.id
  · simp only [hmem, ↓reduceIte]
    simp only [List.any_eq_true] at hmem
    obtain ⟨x, hx, hxid⟩ := hmem
    simp only [ids, List.mem_map]
    exact ⟨x, hx, by simpa using hxid⟩
  · simp [hmem, ids]

theorem mem_ids_applyEvent {cur : List Message} {x : String} (e : ClientEvent)
    (hx : x ∈ ids cur) : x ∈ ids (applyEvent cur e) := by
  cases e with
  | receive m =>
    unfold applyEvent handleNewMessage
    by_cases hmem : cur.any fun y => y.id == m.id
    · simpa [hmem]
    · simp only [hmem, Bool.false_eq_true, ↓reduceIte, ids, List.map_append, List.mem_append]
      exact Or.inl hx
  | optimistic m =>
    simp only [applyEvent, optimisticInsert, ids, List.map_append, List.mem_append]
    exact Or.inl hx

theorem mem_ids_applyEvents {x : String} (events : List ClientEvent) (cur : List Message)
    (hx : x ∈ ids cur) : x ∈ ids (applyEvents cur events) := by
  induction events generalizing cur with
  | nil => exact hx
  | cons e rest ih => exact ih _ (mem_ids_applyEvent e hx)

theorem mem_ids_applyEvents_of_receive (events : List ClientEvent) (cur : List Message)
    (m : Message) (h : ClientEvent.receive m ∈ events) :
    m.id ∈ ids (applyEvents cur events) := by
  induction events generalizing cur with
  | nil => cases h
  | cons e rest ih =>
    rcases List.mem_cons.mp h with he | hrest
    · subst he
      exact mem_ids_applyEvents rest _ (mem_ids_handleNewMessage cur m)
    · exact ih (applyEvent cur e) hrest

theorem ids_nodup_applyEvents (events : List ClientEvent) (cur : List Message)
    (h1 : (ids cur).Nodup) (h2 : optimisticFresh cur events = true) :
    (ids (applyEvents cur events)).Nodup := by
  induction events generalizing cur with
  | nil => exact h1
  | cons e rest ih =>
    cases e with
    | receive m =>
      exact ih _ (ids_nodup_handleNewMessage m h1) h2
    | optimistic m =>
      have h2' : (!(cur.any fun x => x.id == m.id) && optimisticFresh (cur ++ [m]) rest) = true := h2
      rw [Bool.and_eq_true] at h2'
      obtain ⟨hfresh, hrest⟩ := h2'
      have hnot : m.id ∉ ids cur := by
        intro hin
        simp only [ids, List.mem_map] at hin
        obtain ⟨x, hx, hxid⟩ := hin
        simp only [Bool.not_eq_true', List.any_eq_false] at hfresh
        exact absurd (by simp [hxid] : (x.id == m.id) = true) (by simpa using hfresh x hx)
      exact ih _ (nodup_ids_append_fresh h1 hnot) hrest

/- ### Claim theorems -/

/-- Claim C1: for every plaintext `m`, pair `(u1,u2)` and IV, decrypting
`encryptForRoom m u1 u2` with the key for the same pair returns `m`; decrypting
it with a key derived for any pair whose room id differs fails with
`DecryptionError` and never silently yields a wrong plaintext. -/
theorem encrypt_decrypt_roundtrip_and_auth
    (m u1 u2 v1 v2 : String) (iv : List Nat)
    (hdiff : Crypto.getRoomId v1 v2 ≠ Crypto.getRoomId u1 u2) :
    decryptFromRoom (encryptForRoom m u1 u2 iv) u1 u2 = .ok m ∧
    decryptFromRoom (encryptForRoom m u1 u2 iv) v1 v2 =
      .error DecryptionError.decryptionError := by
  constructor
  · simp [decryptFromRoom, encryptForRoom, aesGcmEncrypt, aesGcmDecrypt]
  · have hkey : deriveKeyFromRoom (Crypto.getRoomId u1 u2) ≠
        deriveKeyFromRoom (Crypto.getRoomId v1 v2) := by
      intro h
      exact hdiff (congrArg SymmetricKey.password h).symm
    simp [decryptFromRoom, encryptForRoom, aesGcmEncrypt, aesGcmDecrypt, hkey]

/-- Witness for C1: the concrete pair ("alice","bob") round-trips "hi", and the
pair ("alice","carol") — whose room id differs — fails to decrypt it. -/
theorem encrypt_decrypt_roundtrip_and_auth_witness :
    Crypto.getRoomId "alice" "carol" ≠ Crypto.getRoomId "alice" "bob" ∧
    decryptFromRoom (encryptForRoom "hi" "alice" "bob" [0]) "alice" "bob" = .ok "hi" ∧
    decryptFromRoom (encryptForRoom "hi" "alice" "bob" [0]) "alice" "carol" =
      .error DecryptionError.decryptionError := by
  have hne : Crypto.getRoomId "alice" "carol" ≠ Crypto.getRoomId "alice" "bob" := by
    rw [crypto_getRoomId_eval, crypto_getRoomId_eval]
    decide
  exact ⟨hne, encrypt_decrypt_roundtrip_and_auth "hi" "alice" "bob" "alice" "carol" [0] hne⟩

/-- Claim C2: for every sequence of message events reaching the client — direct
or relay deliveries handled by `handleNewMessage`, or the optimistic local
insert after REST confirmation (whose server-assigned UUID is fresh) — the
local list keeps at most one entry per message id; in particular a message
delivered on both paths ends up in the final list exactly once. -/
theorem reconciler_at_most_one_per_id (init : List Message) (events : List ClientEvent)
    (h1 : (ids init).Nodup) (h2 : optimisticFresh init events = true) :
    (ids (applyEvents init events)).Nodup ∧
    ∀ m : Message, ClientEvent.receive m ∈ events →
      (ids (applyEvents init events)).count m.id = 1 := by
  refine ⟨ids_nodup_applyEvents events init h1 h2, ?_⟩
  intro m hm
  exact List.count_eq_one_of_mem (ids_nodup_applyEvents events init h1 h2)
    (mem_ids_applyEvents_of_receive events init m hm)

/-- Witness for C2: delivering `msgA` twice (once per path) into an empty list
leaves exactly one copy. -/
theorem reconciler_at_most_one_per_id_witness :
    (ids (applyEvents [] [ClientEvent.receive msgA, ClientEvent.receive msgA])).Nodup ∧
    (ids (applyEvents [] [ClientEvent.receive msgA, ClientEvent.receive msgA])).count
      msgA.id = 1 := by
  have h := reconciler_at_most_one_per_id []
    [ClientEvent.receive msgA, ClientEvent.receive msgA] (by simp [ids]) (by decide)
  exact ⟨h.1, h.2 msgA (by simp)⟩

/-- Claim C3: `getRoomId` is commutative and equals
`"room_" ++ min(a,b) ++ "_" ++ max(a,b)` under the lexicographic string order. -/
theorem getRoomId_commutative_and_formula (a b : String) :
    Crypto.getRoomId a b = Crypto.getRoomId b a ∧
    Crypto.getRoomId a b = "room_" ++ min a b ++ "_" ++ max a b := by
  refine ⟨crypto_getRoomId_comm a b, ?_⟩
  unfold Crypto.getRoomId
  rw [sortPair_eq_min_max]

/-- Witness for C3 at the concrete pair ("alice","bob"). -/
theorem getRoomId_commutative_and_formula_witness :
    Crypto.getRoomId "alice" "bob" = Crypto.getRoomId "bob" "alice" ∧
    Crypto.getRoomId "alice" "bob" = "room_" ++ min "alice" "bob" ++ "_" ++ max "alice" "bob" :=
  getRoomId_commutative_and_formula "alice" "bob"

/-- Counterexample for C4: at the concrete pair ("alice","bob") the chat
window local room id ("alice_bob") differs from the one computed by the
crypto module and the store ("room_alice_bob"), so not every room-id
computation in the program agrees. -/
theorem roomId_agreement_counterexample :
    ¬ (ChatWindow.getRoomId "alice" "bob" = Crypto.getRoomId "alice" "bob" ∧
       Crypto.getRoomId "alice" "bob" = Messages.getRoomId "alice" "bob") := by
  intro hc
  exact chatWindow_ne_crypto "alice" "bob" hc.1

/-- Claim C4 amended: the crypto module and message store versions of `getRoomId`
agree (and match the spec formula), but the local room id of the chat window omits
the `room_` prefix, so it differs from the other two for every pair. -/
theorem roomId_agreement_amended (a b : String) :
    Crypto.getRoomId a b = Messages.getRoomId a b ∧
    Crypto.getRoomId a b = "room_" ++ ChatWindow.getRoomId a b ∧
    ChatWindow.getRoomId a b ≠ Crypto.getRoomId a b :=
  ⟨crypto_messages_getRoomId_eq a b, crypto_eq_room_append_chatWindow a b,
    chatWindow_ne_crypto a b⟩

/-- Witness for the amended C4 at the concrete pair ("alice","bob"). -/
theorem roomId_agreement_amended_witness :
    Crypto.getRoomId "alice" "bob" = Messages.getRoomId "alice" "bob" ∧
    Crypto.getRoomId "alice" "bob" = "room_" ++ ChatWindow.getRoomId "alice" "bob" ∧
    ChatWindow.getRoomId "alice" "bob" ≠ Crypto.getRoomId "alice" "bob" :=
  roomId_agreement_amended "alice" "bob"

/-- Claim C5 (code bug): `getMessages` with `limit = 0` returns the whole
message list — JS `slice(-0)` is `slice(0)` — although the function is
documented to return the last `limit` messages. On `storeA`, whose room holds
one message, the result has length 1, not at most 0. -/
theorem getMessages_zero_limit_bug :
    getMessages storeA "room_a_b" 0 = [msgA] ∧
    ¬ ((getMessages storeA "room_a_b" 0).length ≤ 0) := by
  constructor
  · rfl
  · decide

/-- Claim C6: `addMessage` fails with the room-not-found error exactly when the
room is absent; on an existing room it appends exactly one new message (with
the freshly generated id, the given fields and `isRead = false`) to the end of
the message sequence of that room and leaves every other stored room untouched. -/
theorem addMessage_spec (s : ChatRooms)
    (roomId senderId senderName receiverId content freshId : String) (now : Nat) :
    (addMessage s roomId senderId senderName receiverId content freshId now =
        .error StoreError.roomNotFound ↔ mapGet? s roomId = none) ∧
    ∀ room, mapGet? s roomId = some room →
      ∃ s' msg,
        addMessage s roomId senderId senderName receiverId content freshId now =
          .ok (s', msg) ∧
        msg = { id := freshId, senderId := senderId, senderName := senderName,
                receiverId := receiverId, encryptedContent := content,
                timestamp := now, isRead := false } ∧
        mapGet? s' roomId = some { room with messages := room.messages ++ [msg] } ∧
        ∀ k, k ≠ roomId → mapGet? s' k = mapGet? s k := by
  constructor
  · cases hm : mapGet? s roomId <;> simp [addMessage, hm]
  · intro room hroom
    refine ⟨mapSet s roomId { room with messages := room.messages ++
        [{ id := freshId, senderId := senderId, senderName := senderName,
           receiverId := receiverId, encryptedContent := content,
           timestamp := now, isRead := false }] },
      { id := freshId, senderId := senderId, senderName := senderName,
        receiverId := receiverId, encryptedContent := content,
        timestamp := now, isRead := false }, ?_, rfl, ?_, ?_⟩
    · simp [addMessage, hroom]
    · exact mapGet?_mapSet_self s roomId _
    · exact fun k hk => mapGet?_mapSet_ne s roomId k _ hk

/-- Witness for C6 on the concrete store `storeA`. -/
theorem addMessage_spec_witness :
    mapGet? storeA "room_a_b" = some roomAB ∧
    ∃ s' msg,
      addMessage storeA "room_a_b" "a" "Alice" "b" "ct2" "m2" 5 = .ok (s', msg) ∧
      msg = { id := "m2", senderId := "a", senderName := "Alice", receiverId := "b",
              encryptedContent := "ct2", timestamp := 5, isRead := false } ∧
      mapGet? s' "room_a_b" = some { roomAB with messages := roomAB.messages ++ [msg] } ∧
      ∀ k, k ≠ "room_a_b" → mapGet? s' k = mapGet? storeA k :=
  ⟨rfl, (addMessage_spec storeA "room_a_b" "a" "Alice" "b" "ct2" "m2" 5).2 roomAB rfl⟩

/-- Claim C7: after `markMessagesAsRead roomId u` the unread count for `u` in
that room is 0; the call leaves every other room untouched and, message by
message, flips at most `isRead` (never on a message whose receiver is not `u`,
and never any other field). -/
theorem markMessagesAsRead_spec (s : ChatRooms) (roomId userId : String) :
    getUnreadCount (markMessagesAsRead s roomId userId) roomId userId = 0 ∧
    (∀ k, k ≠ roomId → mapGet? (markMessagesAsRead s roomId userId) k = mapGet? s k) ∧
    ∀ room, mapGet? s roomId = some room →
      ∃ room', mapGet? (markMessagesAsRead s roomId userId) roomId = some room' ∧
        room'.id = room.id ∧ room'.participants = room.participants ∧
        room'.createdAt = room.createdAt ∧
        List.Forall₂ (fun old new =>
            (old.receiverId ≠ userId → new = old) ∧
            (new = old ∨ new = { old with isRead := true }))
          room.messages room'.messages := by
  refine ⟨?_, ?_, ?_⟩
  · cases hm : mapGet? s roomId with
    | none => simp [markMessagesAsRead, hm, getUnreadCount]
    | some room =>
      have hset := mapGet?_mapSet_self s roomId
        { room with messages := room.messages.map fun msg =>
            if msg.receiverId == userId && !msg.isRead then { msg with isRead := true }
            else msg }
      simp only [markMessagesAsRead, hm]
      simp only [getUnreadCount, hset]
      rw [filter_unread_after_mark]
      rfl
  · intro k hk
    cases hm : mapGet? s roomId with
    | none => simp [markMessagesAsRead, hm]
    | some room =>
      simp only [markMessagesAsRead, hm]
      exact mapGet?_mapSet_ne s roomId k _ hk
  · intro room hroom
    refine ⟨{ room with messages := room.messages.map fun msg =>
        if msg.receiverId == userId && !msg.isRead then { msg with isRead := true }
        else msg }, ?_, rfl, rfl, rfl, ?_⟩
    · simp only [markMessagesAsRead, hroom]
      exact mapGet?_mapSet_self s roomId _
    · refine forall₂_map_self _ _ _ ?_
      intro a _
      by_cases hp : (a.receiverId == userId && !a.isRead) = true
      · constructor
        · intro hne
          exact absurd (by simpa using (Bool.and_eq_true _ _ |>.mp hp).1) hne
        · right; simp [hp]
      · constructor
        · intro _; simp [hp]
        · left; simp [hp]

/-- Witness for C7 on the concrete store `storeA`. -/
theorem markMessagesAsRead_spec_witness :
    getUnreadCount (markMessagesAsRead storeA "room_a_b" "b") "room_a_b" "b" = 0 ∧
    ∃ room', mapGet? (markMessagesAsRead storeA "room_a_b" "b") "room_a_b" = some room' ∧
      room'.id = roomAB.id ∧ room'.participants = roomAB.participants ∧
      room'.createdAt = roomAB.createdAt ∧
      List.Forall₂ (fun old new =>
          (old.receiverId ≠ "b" → new = old) ∧
          (new = old ∨ new = { old with isRead := true }))
        roomAB.messages room'.messages :=
  ⟨(markMessagesAsRead_spec storeA "room_a_b" "b").1,
   (markMessagesAsRead_spec storeA "room_a_b" "b").2.2 roomAB rfl⟩

/-- Claim C8: on a well-formed store `getOrCreateRoom` returns, for either
argument order, the room whose id is `room(u1,u2)`; it creates the room (empty,
leaving all other keys untouched) only when absent, returns an existing room
with the store unchanged, and a later call in the opposite order returns the
very same room with its message sequence intact. -/
theorem getOrCreateRoom_spec (s : ChatRooms) (u1 u2 : String) (now now' : Nat)
    (hwf : WellFormedStore s) :
    (getOrCreateRoom s u1 u2 now).2.id = Messages.getRoomId u1 u2 ∧
    (getOrCreateRoom s u2 u1 now).2.id = Messages.getRoomId u1 u2 ∧
    (∀ room, mapGet? s (Messages.getRoomId u1 u2) = some room →
      getOrCreateRoom s u1 u2 now = (s, room) ∧ getOrCreateRoom s u2 u1 now = (s, room)) ∧
    (mapGet? s (Messages.getRoomId u1 u2) = none →
      (getOrCreateRoom s u1 u2 now).2 =
        { id := Messages.getRoomId u1 u2, participants := [u1, u2], messages := [],
          createdAt := now } ∧
      mapGet? (getOrCreateRoom s u1 u2 now).1 (Messages.getRoomId u1 u2) =
        some (getOrCreateRoom s u1 u2 now).2 ∧
      ∀ k, k ≠ Messages.getRoomId u1 u2 →
        mapGet? (getOrCreateRoom s u1 u2 now).1 k = mapGet? s k) ∧
    getOrCreateRoom (getOrCreateRoom s u1 u2 now).1 u2 u1 now' =
      ((getOrCreateRoom s u1 u2 now).1, (getOrCreateRoom s u1 u2 now).2) := by
  have hcomm : Messages.getRoomId u2 u1 = Messages.getRoomId u1 u2 :=
    messages_getRoomId_comm u2 u1
  cases hm : mapGet? s (Messages.getRoomId u1 u2) with
  | some room =>
    have hid : room.id = Messages.getRoomId u1 u2 := hwf _ _ hm
    refine ⟨?_, ?_, ?_, ?_, ?_⟩
    · simp [getOrCreateRoom, hm, hid]
    · simp [getOrCreateRoom, hcomm, hm, hid]
    · intro room₂ hm₂
      injection hm₂ with hh
      subst hh
      exact ⟨by simp [getOrCreateRoom, hm], by simp [getOrCreateRoom, hcomm, hm]⟩
    · intro hnone
      simp at hnone
    · simp [getOrCreateRoom, hcomm, hm]
  | none =>
    refine ⟨?_, ?_, ?_, ?_, ?_⟩
    · simp [getOrCreateRoom, hm]
    · simp [getOrCreateRoom, hcomm, hm]
    · intro room₂ hm₂
      simp at hm₂
    · intro _
      refine ⟨by simp [getOrCreateRoom, hm], ?_, ?_⟩
      · simp only [getOrCreateRoom, hm]
        exact mapGet?_mapSet_self s _ _
      · intro k hk
        simp only [getOrCreateRoom, hm]
        exact mapGet?_mapSet_ne s _ k _ hk
    · simp [getOrCreateRoom, hcomm, hm, mapGet?_mapSet_self]

/-- Witness for C8: starting from the empty (trivially well-formed) store. -/
theorem getOrCreateRoom_spec_witness :
    WellFormedStore ([] : ChatRooms) ∧
    (getOrCreateRoom [] "a" "b" 0).2.id = Messages.getRoomId "a" "b" ∧
    getOrCreateRoom (getOrCreateRoom [] "a" "b" 0).1 "b" "a" 1 =
      ((getOrCreateRoom [] "a" "b" 0).1, (getOrCreateRoom [] "a" "b" 0).2) := by
  have hwf : WellFormedStore ([] : ChatRooms) := by
    intro k room h
    simp [mapGet?] at h
  have h := getOrCreateRoom_spec [] "a" "b" 0 1 hwf
  exact ⟨hwf, h.1, h.2.2.2.2⟩

/-- Claim C9: both REST message handlers reject a request lacking an
authenticated session user id (no session, or a falsy empty id) with the 401
`Unauthorized` response: the GET returns no messages and the POST leaves the
store exactly as it was, performing no `getOrCreateRoom` and no `addMessage`. -/
theorem rest_handlers_unauthorized (session : Option SessionUser)
    (otherUserId receiverId encryptedContent : Option String)
    (s : ChatRooms) (freshId : String) (now : Nat)
    (h : session = none ∨ ∃ u, session = some u ∧ u.id = "") :
    handleGET session otherUserId s = GetResult.unauthorized ∧
    handlePOST session receiverId encryptedContent s freshId now =
      (PostResult.unauthorized, s) := by
  rcases h with h | ⟨u, hu, hid⟩
  · subst h
    exact ⟨rfl, rfl⟩
  · subst hu
    constructor
    · simp [handleGET, hid]
    · simp [handlePOST, hid]

/-- Witness for C9 with no session at all, on the concrete store `storeA`. -/
theorem rest_handlers_unauthorized_witness :
    handleGET none (some "b") storeA = GetResult.unauthorized ∧
    handlePOST none (some "b") (some "ct") storeA "m2" 5 =
      (PostResult.unauthorized, storeA) :=
  rest_handlers_unauthorized none (some "b") (some "b") (some "ct") storeA "m2" 5 (Or.inl rfl)

/-- Claim C10: the read-side store operations treat an absent room as empty:
`getMessages` returns `[]`, `getUnreadCount` returns 0, and
`markMessagesAsRead` leaves the store unchanged. -/
theorem absent_room_reads (s : ChatRooms) (roomId userId : String) (limit : Nat)
    (h : mapGet? s roomId = none) :
    getMessages s roomId limit = [] ∧
    getUnreadCount s roomId userId = 0 ∧
    markMessagesAsRead s roomId userId = s := by
  refine ⟨?_, ?_, ?_⟩ <;> simp [getMessages, getUnreadCount, markMessagesAsRead, h]

/-- Witness for C10 at a room id absent from the concrete store `storeA`. -/
theorem absent_room_reads_witness :
    mapGet? storeA "room_a_c" = none ∧
    (getMessages storeA "room_a_c" 50 = [] ∧
     getUnreadCount storeA "room_a_c" "a" = 0 ∧
     markMessagesAsRead storeA "room_a_c" "a" = storeA) :=
  ⟨rfl, absent_room_reads storeA "room_a_c" "a" 50 rfl⟩

end SecureChat
